import Mathlib

/-!
Verification of the text normalization and classification pipeline of
`src/main.py` (PDF word-frequency analyzer).

The Python source is shallowly embedded below.  External linguistic
capabilities (the NLTK POS tagger `pos_tag`, the WordNet lemmatizer
`lemmatizer.lemmatize`, the unscoped dictionary lookup `wordnet.morphy`,
and the NLTK stopword list) are modelled as explicit function parameters,
since they are injected library data, not code of this repository.
File-system reads are modelled by their observable result: an optional
list of lines (`none` = no path given, or the path is not a readable file).
-/

/-- WordNet grammatical categories: the four values `wordnet.ADJ`,
`wordnet.VERB`, `wordnet.NOUN`, `wordnet.ADV` used by `main.py`. -/
inductive WnPos where
  | noun
  | verb
  | adj
  | adv
deriving DecidableEq

/-- Python `tag.startswith(c)` for a one-character pattern, as used in
`get_wordnet_pos`: true iff the string is nonempty and its first
character is `c`. -/
def pyStartsWith (s : String) (c : Char) : Bool :=
  match s.data with
  | [] => false
  | d :: _ => d == c

/-- Embedding of `get_wordnet_pos` (main.py lines 26-36): map an NLTK
POS tag to a WordNet POS by the tag's leading character. -/
def get_wordnet_pos (tag : String) : WnPos :=
  if pyStartsWith tag 'J' then WnPos.adj
  else if pyStartsWith tag 'V' then WnPos.verb
  else if pyStartsWith tag 'N' then WnPos.noun
  else if pyStartsWith tag 'R' then WnPos.adv
  else WnPos.noun

/-- Embedding of `normalize_word` (main.py lines 38-42):
`lemma = lemmatizer.lemmatize(word, tag or wordnet.NOUN)` followed by
`morphed = wordnet.morphy(lemma)`, returning `morphed if morphed else lemma`.
The external lemmatizer and the external (category-unscoped, one-argument)
`wordnet.morphy` are parameters; `morphy` returning `none` covers the
falsy results of the Python call (`None`). `tag = none` is Python's
`tag=None` default, which `tag or wordnet.NOUN` turns into NOUN. -/
def normalize_word (lemmatize : String → WnPos → String)
    (morphy : String → Option String)
    (word : String) (tag : Option WnPos) : String :=
  let lm := lemmatize word (tag.getD WnPos.noun)
  match morphy lm with
  | some m => m
  | none => lm

/-- Python `str.strip()`: remove leading and trailing whitespace. -/
def pyStrip (s : String) : String :=
  String.mk (((s.data.dropWhile Char.isWhitespace).reverse.dropWhile
    Char.isWhitespace).reverse)

/-- Python `str.lower()`: case-fold each character. -/
def pyLower (s : String) : String :=
  String.mk (s.data.map Char.toLower)

/-- Python `str.isdigit()`: nonempty and every character a digit. -/
def pyIsDigit (s : String) : Bool :=
  !s.data.isEmpty && s.data.all Char.isDigit

/-- One iteration of the loop body of `load_known_words`
(main.py lines 48-52): strip and lower the line; if the result is
nonempty, normalize it (with Python default `tag=None`) and add it to
the set. -/
def loadStep (lemmatize : String → WnPos → String)
    (morphy : String → Option String)
    (acc : Finset String) (line : String) : Finset String :=
  let w := pyLower (pyStrip line)
  if w = "" then acc
  else insert (normalize_word lemmatize morphy w none) acc

/-- Embedding of `load_known_words` (main.py lines 44-56).  The
file-system interaction is modelled by its observable result: `none`
when no path was given or `os.path.isfile` fails (the function then
returns the empty set), `some lines` for the lines of a readable file. -/
def load_known_words (lemmatize : String → WnPos → String)
    (morphy : String → Option String) :
    Option (List String) → Finset String
  | none => ∅
  | some lines => lines.foldl (loadStep lemmatize morphy) ∅

/-- A word character of the regex `\w`: alphanumeric or underscore. -/
def isWordChar (c : Char) : Bool :=
  c.isAlphanum || c == '_'

/-- Python `text.replace("-\n", "")`: left-to-right removal of each
hyphen that is immediately followed by a line break. -/
def dehyphenate : List Char → List Char
  | [] => []
  | '-' :: '\n' :: rest => dehyphenate rest
  | c :: rest => c :: dehyphenate rest

/-- Python `text.replace("\n", " ")`: every remaining line break becomes
a single space. -/
def newlinesToSpaces (cs : List Char) : List Char :=
  cs.map (fun c => if c = '\n' then ' ' else c)

/-- Accumulator-based extraction of the maximal runs of word characters,
i.e. `re.findall(r"\b\w+\b", text)`.  `acc` holds the current run,
reversed. -/
def wordRunsAux : List Char → List Char → List String
  | [], acc => if acc.isEmpty then [] else [String.mk acc.reverse]
  | c :: rest, acc =>
    if isWordChar c then wordRunsAux rest (c :: acc)
    else if acc.isEmpty then wordRunsAux rest []
    else String.mk acc.reverse :: wordRunsAux rest []

/-- The maximal runs of word characters of a character list, in order. -/
def wordRuns (cs : List Char) : List String :=
  wordRunsAux cs []

/-- The token filter of main.py line 61: keep `w` iff it is not a
stopword, not all digits, and at least 3 characters long. -/
def keepToken (stop : List String) (w : String) : Bool :=
  !stop.contains w && !pyIsDigit w && decide (3 ≤ w.data.length)

/-- Embedding of the tokenizer/filter part of `clean_and_lemmatize`
(main.py lines 59-61): remove hyphen-linebreak pairs, turn remaining
line breaks into spaces, lowercase, extract maximal word-character
runs, and filter.  The stopword list is the external NLTK resource,
passed as a parameter. -/
def tokenize_filter (stop : List String) (text : String) : List String :=
  (wordRuns ((newlinesToSpaces (dehyphenate text.data)).map
    Char.toLower)).filter (keepToken stop)

/-- Embedding of `clean_and_lemmatize` (main.py lines 58-70): tokenize
and filter, tag the surviving tokens with the external `pos_tag`
(parameter `tagger`), and normalize each (token, tag) pair. -/
def clean_and_lemmatize (stop : List String)
    (tagger : List String → List (String × String))
    (lemmatize : String → WnPos → String)
    (morphy : String → Option String)
    (text : String) : List String :=
  (tagger (tokenize_filter stop text)).map
    (fun p => normalize_word lemmatize morphy p.1 (some (get_wordnet_pos p.2)))

/-- Embedding of the post-extraction part of `process_pdf`
(main.py lines 86-90): the accumulated extracted text is the input;
`if not text.strip(): return None` and otherwise the lemma stream.
(The pdfplumber extraction itself and its exception branch are the
external collaborator producing `text`.) -/
def process_pdf (stop : List String)
    (tagger : List String → List (String × String))
    (lemmatize : String → WnPos → String)
    (morphy : String → Option String)
    (text : String) : Option (List String) :=
  if pyStrip text = "" then none
  else some (clean_and_lemmatize stop tagger lemmatize morphy text)

/-- A Python `collections.Counter` built from a list: each distinct
element paired with its number of occurrences. -/
def counter (l : List String) : List (String × Nat) :=
  l.dedup.map (fun w => (w, l.count w))

/-- Python `Counter.get(w, 0)` / `counter[w]`: the stored count of `w`,
or 0 when `w` is not a key. -/
def cget (c : List (String × Nat)) (w : String) : Nat :=
  ((c.find? (fun p => p.1 == w)).map Prod.snd).getD 0

/-- The keys of a frequency table. -/
def keys (c : List (String × Nat)) : List String :=
  c.map Prod.fst

/-- main.py line 173: `[w for w in lemmatized_words if w in known_words]`. -/
def excluded_words (known : Finset String) (ws : List String) : List String :=
  ws.filter (fun w => decide (w ∈ known))

/-- main.py line 174: `[w for w in lemmatized_words if w not in known_words]`. -/
def unknown_words (known : Finset String) (ws : List String) : List String :=
  ws.filter (fun w => !decide (w ∈ known))

/-- main.py line 176: `Counter(excluded_words)` — the "known" table. -/
def excluded_freq (known : Finset String) (ws : List String) :
    List (String × Nat) :=
  counter (excluded_words known ws)

/-- main.py line 177: `Counter(unknown_words)` — the "unknown" table. -/
def unknown_freq (known : Finset String) (ws : List String) :
    List (String × Nat) :=
  counter (unknown_words known ws)

/-- main.py line 178: `Counter(lemmatized_words)` — the "all" table. -/
def all_freq (ws : List String) : List (String × Nat) :=
  counter ws

/-- Embedding of the core of `main` (main.py lines 168-178): load the
known words, run the pipeline, exit with status 1 when it reports no
data (`sys.exit(1)`), and otherwise build the three frequency tables
(known, unknown, all). -/
def run_core (stop : List String)
    (tagger : List String → List (String × String))
    (lemmatize : String → WnPos → String)
    (morphy : String → Option String)
    (knownLines : Option (List String)) (text : String) :
    Except Nat (List (String × Nat) × List (String × Nat) × List (String × Nat)) :=
  let known := load_known_words lemmatize morphy knownLines
  match process_pdf stop tagger lemmatize morphy text with
  | none => Except.error 1
  | some ws =>
    Except.ok (excluded_freq known ws, unknown_freq known ws, all_freq ws)

/-- Second normalizer definition, following the spec's words for the
refinement check of the lookup stage (spec 4.3: the dictionary
morphological lookup is "also scoped by category context"): the
lookup `morphyPos` receives the candidate AND the grammatical
category. -/
def normalize_word_spec (lemmatize : String → WnPos → String)
    (morphyPos : String → WnPos → Option String)
    (word : String) (tag : Option WnPos) : String :=
  let lm := lemmatize word (tag.getD WnPos.noun)
  match morphyPos lm (tag.getD WnPos.noun) with
  | some m => m
  | none => lm

/-- The category-unscoped view of a scoped dictionary: NLTK's
`wordnet.morphy(form)` with no `pos` argument tries every POS in the
order NOUN, VERB, ADJ, ADV and returns the first analysis found.
This is what the one-argument call `wordnet.morphy(lemma)` in
main.py line 41 performs. -/
def morphyAny (morphyPos : String → WnPos → Option String)
    (s : String) : Option String :=
  match morphyPos s WnPos.noun with
  | some r => some r
  | none =>
    match morphyPos s WnPos.verb with
    | some r => some r
    | none =>
      match morphyPos s WnPos.adj with
      | some r => some r
      | none => morphyPos s WnPos.adv

/-- A lemmatizer that returns every word unchanged, as the WordNet
lemmatizer does when it has no applicable rule. Used as a concrete
instantiation of the external lemmatizer. -/
def exLem : String → WnPos → String := fun w _ => w

/-- A small concrete scoped morphological dictionary mirroring real
WordNet data: the form "saw" analyzed as a VERB has base form "see"
while as a NOUN it is already a base form, and the plural "cans" has
the NOUN base form "can". -/
def exDict : String → WnPos → Option String := fun s p =>
  if s = "saw" then
    if p = WnPos.verb then some "see"
    else if p = WnPos.noun then some "saw"
    else none
  else if s = "cans" then
    if p = WnPos.noun then some "can" else none
  else none

/-- A fragment of the NLTK English stopword list (the real list contains
"the", "are" and also "can"). -/
def exStop : List String := ["the", "are", "can"]

/-- A concrete instantiation of the external POS tagger that tags every
token as a plural noun. -/
def exTagger : List String → List (String × String) :=
  fun ws => ws.map (fun w => (w, "NNS"))

/-! ### Counter lemmas -/

theorem count_filter_of_neg {p : String → Bool} {w : String}
    (h : p w = false) (l : List String) : (l.filter p).count w = 0 := by
  rw [List.count_eq_zero]
  intro hmem
  have hw := (List.mem_filter.mp hmem).2
  rw [h] at hw
  cases hw

theorem find_map_pair (w : String) (f : String → Nat) (d : List String) :
    (d.map (fun x => (x, f x))).find? (fun p => p.1 == w) =
      if w ∈ d then some (w, f w) else none := by
  induction d with
  | nil => simp
  | cons a d ih =>
    by_cases h : a = w
    · subst h
      simp
    · rw [List.map_cons, List.find?_cons_of_neg _ (by simp [h]), ih]
      by_cases hm : w ∈ d
      · rw [if_pos hm, if_pos (List.mem_cons_of_mem a hm)]
      · rw [if_neg hm, if_neg (by
          intro hc
          rcases List.mem_cons.mp hc with hc | hc
          · exact h hc.symm
          · exact hm hc)]

theorem cget_counter (l : List String) (w : String) :
    cget (counter l) w = l.count w := by
  unfold cget counter
  rw [find_map_pair]
  by_cases h : w ∈ l.dedup
  · simp [h]
  · have hnm : w ∉ l := fun hm => h (List.mem_dedup.mpr hm)
    simp [h, List.count_eq_zero.mpr hnm]

theorem keys_counter (l : List String) : keys (counter l) = l.dedup := by
  unfold keys counter
  induction l.dedup with
  | nil => rfl
  | cons a d ih => simp [ih]

theorem mem_keys_counter {l : List String} {w : String} :
    w ∈ keys (counter l) ↔ w ∈ l := by
  rw [keys_counter, List.mem_dedup]

theorem counter_pos {l : List String} {p : String × Nat}
    (hp : p ∈ counter l) : 0 < p.2 := by
  unfold counter at hp
  rcases List.mem_map.mp hp with ⟨w, hw, rfl⟩
  exact List.count_pos_iff.mpr (List.mem_dedup.mp hw)

/-! ### Tokenizer and strip lemmas -/

theorem pyStartsWith_nil {s : String} (h : s.data = []) (c : Char) :
    pyStartsWith s c = false := by
  unfold pyStartsWith
  rw [h]

theorem pyStartsWith_cons {s : String} {d : Char} {rest : List Char}
    (h : s.data = d :: rest) (c : Char) : pyStartsWith s c = (d == c) := by
  unfold pyStartsWith
  rw [h]

theorem wordRunsAux_mem (cs : List Char) :
    ∀ acc : List Char, (∀ c ∈ acc, isWordChar c = true) →
      ∀ r ∈ wordRunsAux cs acc, r.data ≠ [] ∧ r.data.all isWordChar = true := by
  induction cs with
  | nil =>
    intro acc hacc r hr
    unfold wordRunsAux at hr
    by_cases h : acc.isEmpty
    · rw [if_pos h] at hr
      cases hr
    · rw [if_neg h] at hr
      rcases List.mem_singleton.mp hr with rfl
      refine ⟨?_, ?_⟩
      · show acc.reverse ≠ []
        intro hc
        exact h (List.isEmpty_iff.mpr (List.reverse_eq_nil_iff.mp hc))
      · show acc.reverse.all isWordChar = true
        rw [List.all_eq_true]
        intro x hx
        exact hacc x (List.mem_reverse.mp hx)
  | cons c rest ih =>
    intro acc hacc r hr
    unfold wordRunsAux at hr
    by_cases hw : isWordChar c
    · rw [if_pos hw] at hr
      refine ih (c :: acc) ?_ r hr
      intro x hx
      rcases List.mem_cons.mp hx with rfl | hx
      · exact hw
      · exact hacc x hx
    · rw [if_neg hw] at hr
      by_cases he : acc.isEmpty
      · rw [if_pos he] at hr
        exact ih [] (by intro x hx; cases hx) r hr
      · rw [if_neg he] at hr
        rcases List.mem_cons.mp hr with rfl | hr
        · refine ⟨?_, ?_⟩
          · show acc.reverse ≠ []
            intro hc
            exact he (List.isEmpty_iff.mpr (List.reverse_eq_nil_iff.mp hc))
          · show acc.reverse.all isWordChar = true
            rw [List.all_eq_true]
            intro x hx
            exact hacc x (List.mem_reverse.mp hx)
        · exact ih [] (by intro x hx; cases hx) r hr

theorem pyStrip_eq_empty_iff (s : String) :
    pyStrip s = "" ↔ s.data.all Char.isWhitespace = true := by
  constructor
  · intro h
    have hd : ((s.data.dropWhile Char.isWhitespace).reverse.dropWhile
        Char.isWhitespace).reverse = ([] : List Char) := congrArg String.data h
    have h1 : (s.data.dropWhile Char.isWhitespace).reverse.dropWhile
        Char.isWhitespace = [] := List.reverse_eq_nil_iff.mp hd
    have h2 : ∀ x ∈ s.data.dropWhile Char.isWhitespace, Char.isWhitespace x := by
      intro x hx
      exact List.dropWhile_eq_nil_iff.mp h1 x (List.mem_reverse.mpr hx)
    rw [List.all_eq_true]
    intro x hx
    rw [← List.takeWhile_append_dropWhile Char.isWhitespace s.data] at hx
    rcases List.mem_append.mp hx with hx | hx
    · exact List.mem_takeWhile_imp hx
    · exact h2 x hx
  · intro h
    have h0 : s.data.dropWhile Char.isWhitespace = [] :=
      List.dropWhile_eq_nil_iff.mpr (fun x hx => List.all_eq_true.mp h x hx)
    unfold pyStrip
    rw [h0]
    rfl

/-! ### Vocabulary loader lemma -/

theorem load_foldl_mem (lemmatize : String → WnPos → String)
    (morphy : String → Option String) (lines : List String) :
    ∀ (s : Finset String) (w : String),
      (w ∈ lines.foldl (loadStep lemmatize morphy) s ↔
        w ∈ s ∨ ∃ line ∈ lines, pyLower (pyStrip line) ≠ "" ∧
          w = normalize_word lemmatize morphy (pyLower (pyStrip line)) none) := by
  induction lines with
  | nil =>
    intro s w
    simp
  | cons a lines ih =>
    intro s w
    rw [List.foldl_cons, ih]
    unfold loadStep
    by_cases h : pyLower (pyStrip a) = ""
    · rw [if_pos h]
      simp only [List.exists_mem_cons_iff, h]
      tauto
    · rw [if_neg h]
      simp only [List.exists_mem_cons_iff, Finset.mem_insert, h]
      tauto

/-! ### Claim theorems -/

/-- C1: for every lemma stream and known-word set, the three tables of
main.py lines 173-178 satisfy, for every lemma L,
all.get(L,0) = known.get(L,0) + unknown.get(L,0); no lemma has a
positive count in both the known and the unknown table; and the known
and unknown occurrence lists partition the full multiset of lemma
occurrences (their concatenation is a permutation of the stream). -/
theorem classifier_partition_invariant (known : Finset String)
    (ws : List String) (L : String) :
    cget (all_freq ws) L =
        cget (excluded_freq known ws) L + cget (unknown_freq known ws) L ∧
    (cget (excluded_freq known ws) L = 0 ∨ cget (unknown_freq known ws) L = 0) ∧
    (excluded_words known ws ++ unknown_words known ws).Perm ws := by
  have hE : cget (excluded_freq known ws) L =
      if L ∈ known then ws.count L else 0 := by
    by_cases h : L ∈ known
    · rw [if_pos h]
      unfold excluded_freq excluded_words
      rw [cget_counter, List.count_filter (by simp [h])]
    · rw [if_neg h]
      unfold excluded_freq excluded_words
      rw [cget_counter, count_filter_of_neg (by simp [h])]
  have hU : cget (unknown_freq known ws) L =
      if L ∈ known then 0 else ws.count L := by
    by_cases h : L ∈ known
    · rw [if_pos h]
      unfold unknown_freq unknown_words
      rw [cget_counter, count_filter_of_neg (by simp [h])]
    · rw [if_neg h]
      unfold unknown_freq unknown_words
      rw [cget_counter, List.count_filter (by simp [h])]
  have hA : cget (all_freq ws) L = ws.count L := by
    unfold all_freq
    rw [cget_counter]
  refine ⟨?_, ?_, ?_⟩
  · rw [hA, hE, hU]
    by_cases h : L ∈ known <;> simp [h]
  · rw [hE, hU]
    by_cases h : L ∈ known <;> simp [h]
  · unfold excluded_words unknown_words
    exact List.filter_append_perm (fun w => decide (w ∈ known)) ws

/-- C4: the tag-to-category mapping of main.py lines 26-36 returns
ADJECTIVE for tags starting with "J", VERB for "V", NOUN for "N",
ADVERB for "R", and NOUN for any other tag.  It is a plain function of
the tag string, hence deterministic. -/
theorem get_wordnet_pos_spec (tag : String) :
    (pyStartsWith tag 'J' = true → get_wordnet_pos tag = WnPos.adj) ∧
    (pyStartsWith tag 'V' = true → get_wordnet_pos tag = WnPos.verb) ∧
    (pyStartsWith tag 'N' = true → get_wordnet_pos tag = WnPos.noun) ∧
    (pyStartsWith tag 'R' = true → get_wordnet_pos tag = WnPos.adv) ∧
    ((pyStartsWith tag 'J' || pyStartsWith tag 'V' || pyStartsWith tag 'N' ||
        pyStartsWith tag 'R') = false → get_wordnet_pos tag = WnPos.noun) := by
  cases h : tag.data with
  | nil =>
    simp [get_wordnet_pos, pyStartsWith_nil h]
  | cons d rest =>
    simp only [get_wordnet_pos, pyStartsWith_cons h]
    by_cases hJ : d = 'J' <;> by_cases hV : d = 'V' <;> by_cases hN : d = 'N' <;>
      by_cases hR : d = 'R' <;> simp_all

/-- C4 witness: concrete evaluations of the tag mapping through
`get_wordnet_pos_spec`. -/
theorem get_wordnet_pos_spec_witness :
    get_wordnet_pos "VBZ" = WnPos.verb ∧ get_wordnet_pos "XX" = WnPos.noun :=
  ⟨(get_wordnet_pos_spec "VBZ").2.1 (by decide),
   (get_wordnet_pos_spec "XX").2.2.2.2 (by decide)⟩

/-- C2 counterexample: the claim says the second-stage dictionary lookup
is scoped by the category context, but main.py line 41 calls the
one-argument `wordnet.morphy(lemma)`, which ignores the category and
tries every POS (modelled by `morphyAny`).  With the WordNet data for
"saw" (VERB base form "see", NOUN base form "saw") and a VERB-tagged
input, the code yields "saw" while the category-scoped normalizer of
the spec (`normalize_word_spec`) yields "see". -/
theorem normalize_word_not_category_scoped :
    normalize_word exLem (morphyAny exDict) "saw" (some WnPos.verb) ≠
      normalize_word_spec exLem exDict "saw" (some WnPos.verb) := by
  decide

/-- C2 as amended: normalize first applies the category-constrained
reducer to obtain a candidate, then applies the category-UNscoped
dictionary lookup to that candidate; if the lookup returns an alternate
base form that is the final lemma, otherwise the candidate is, and
normalize never fails.  The category influences the result only through
the first-stage reducer: whenever two category contexts give the same
first-stage candidate, the final lemma is the same. -/
theorem normalize_word_unscoped_lookup (lemmatize : String → WnPos → String)
    (morphy : String → Option String) (word : String) (t1 t2 : Option WnPos)
    (h : lemmatize word (t1.getD WnPos.noun) = lemmatize word (t2.getD WnPos.noun)) :
    normalize_word lemmatize morphy word t1 =
      (morphy (lemmatize word (t1.getD WnPos.noun))).getD
        (lemmatize word (t1.getD WnPos.noun)) ∧
    normalize_word lemmatize morphy word t1 =
      normalize_word lemmatize morphy word t2 := by
  constructor
  · unfold normalize_word
    cases hm : morphy (lemmatize word (t1.getD WnPos.noun)) <;> simp [hm]
  · unfold normalize_word
    rw [h]

/-- C2 witness: the amended claim evaluated at a concrete word with a
VERB tag and with no tag. -/
theorem normalize_word_unscoped_lookup_witness :
    normalize_word exLem (morphyAny exDict) "cats" (some WnPos.verb) =
      (morphyAny exDict (exLem "cats" WnPos.verb)).getD (exLem "cats" WnPos.verb) ∧
    normalize_word exLem (morphyAny exDict) "cats" (some WnPos.verb) =
      normalize_word exLem (morphyAny exDict) "cats" none :=
  normalize_word_unscoped_lookup exLem (morphyAny exDict) "cats"
    (some WnPos.verb) none rfl

/-- C3: the tokenizer (main.py lines 59-61) first removes each hyphen
immediately followed by a line break, turns remaining line breaks into
spaces, lowercases, extracts maximal runs of alphanumeric/underscore
characters, and keeps exactly the tokens that are not stopwords, not
all digits, and at least 3 characters long, preserving order (the
output is a filter, hence a sublist, of the extracted run sequence);
every surviving token is a nonempty run of word characters. -/
theorem tokenize_filter_spec (stop : List String) (text : String) :
    tokenize_filter stop text =
      (wordRuns ((newlinesToSpaces (dehyphenate text.data)).map
        Char.toLower)).filter (keepToken stop) ∧
    (tokenize_filter stop text).Sublist
      (wordRuns ((newlinesToSpaces (dehyphenate text.data)).map Char.toLower)) ∧
    ∀ w ∈ tokenize_filter stop text,
      stop.contains w = false ∧ pyIsDigit w = false ∧ 3 ≤ w.data.length ∧
        w.data ≠ [] ∧ w.data.all isWordChar = true := by
  refine ⟨rfl, List.filter_sublist _, ?_⟩
  intro w hw
  have hmem := List.mem_of_mem_filter hw
  have hkeep : keepToken stop w = true := List.of_mem_filter hw
  have hprops := wordRunsAux_mem
    ((newlinesToSpaces (dehyphenate text.data)).map Char.toLower) []
    (by intro x hx; cases hx) w hmem
  unfold keepToken at hkeep
  simp only [Bool.and_eq_true, Bool.not_eq_true', decide_eq_true_eq] at hkeep
  exact ⟨hkeep.1.1, hkeep.1.2, hkeep.2, hprops.1, hprops.2⟩

/-- C3 witness: in a concrete text the token "running" survives (after
re-joining the line-wrap hyphenation) and satisfies all the filter
properties; the stopwords, the all-digit token and the short token are
gone. -/
theorem tokenize_filter_spec_witness :
    exStop.contains "running" = false ∧ pyIsDigit "running" = false ∧
      3 ≤ "running".data.length ∧ "running".data ≠ [] ∧
      "running".data.all isWordChar = true :=
  (tokenize_filter_spec exStop "The cats are run-\nning. 42 ab").2.2
    "running" (by decide)

/-- C5: the vocabulary loader (main.py lines 44-56) returns the empty
set when no readable file is given, and otherwise the set of
normalizations (with Python default tag, i.e. NOUN) of the stripped,
lowercased, nonblank lines; set insertion collapses duplicates. -/
theorem load_known_words_spec (lemmatize : String → WnPos → String)
    (morphy : String → Option String) :
    load_known_words lemmatize morphy none = (∅ : Finset String) ∧
    ∀ (lines : List String) (w : String),
      (w ∈ load_known_words lemmatize morphy (some lines) ↔
        ∃ line ∈ lines, pyLower (pyStrip line) ≠ "" ∧
          w = normalize_word lemmatize morphy (pyLower (pyStrip line)) none) := by
  refine ⟨rfl, ?_⟩
  intro lines w
  unfold load_known_words
  rw [load_foldl_mem]
  simp

/-- C6: with the known-words file absent or missing (input `none`, so
the loaded set is empty) the known table is empty and the unknown
table equals the all table. -/
theorem absent_known_file_tables (lemmatize : String → WnPos → String)
    (morphy : String → Option String) (ws : List String) :
    excluded_freq (load_known_words lemmatize morphy none) ws = [] ∧
    unknown_freq (load_known_words lemmatize morphy none) ws = all_freq ws := by
  have h : load_known_words lemmatize morphy none = (∅ : Finset String) := rfl
  rw [h]
  constructor
  · unfold excluded_freq excluded_words counter
    simp
  · unfold unknown_freq unknown_words all_freq
    simp

/-- C7 counterexample: a stopword CAN appear as a key of an output
table, because filtering happens before lemmatization.  Mirroring real
NLTK/WordNet data (the English stopword list contains "can"; WordNet
reduces the plural "cans" to "can"), the non-stopword token "cans"
survives the filter and its lemma "can" — a stopword — becomes a key
of the all-words frequency table. -/
theorem stopword_key_in_tables :
    exStop.contains "can" = true ∧
    "can" ∈ keys (all_freq
      (clean_and_lemmatize exStop exTagger exLem (morphyAny exDict) "cans")) := by
  decide

/-- C7 as amended: a dropped token (stopword, all digits, or shorter
than 3 characters) never contributes an occurrence: every key of each
of the three tables is the normalization of some token that survived
the filter — a token that is not a stopword, not all digits, and at
least 3 characters long.  (The key itself, being a lemma, may still
coincide with such a string, as the counterexample shows.)  The tagger
hypothesis is its interface contract: it returns the given tokens
paired with tags. -/
theorem table_keys_from_surviving_tokens (stop : List String)
    (tagger : List String → List (String × String))
    (lemmatize : String → WnPos → String) (morphy : String → Option String)
    (known : Finset String) (text : String)
    (htag : ∀ ws, (tagger ws).map Prod.fst = ws) (w : String)
    (hw : w ∈ keys (excluded_freq known
            (clean_and_lemmatize stop tagger lemmatize morphy text)) ∨
          w ∈ keys (unknown_freq known
            (clean_and_lemmatize stop tagger lemmatize morphy text)) ∨
          w ∈ keys (all_freq
            (clean_and_lemmatize stop tagger lemmatize morphy text))) :
    ∃ t ∈ tokenize_filter stop text,
      stop.contains t = false ∧ pyIsDigit t = false ∧ 3 ≤ t.data.length ∧
      ∃ tg, w = normalize_word lemmatize morphy t (some (get_wordnet_pos tg)) := by
  have hmem : w ∈ clean_and_lemmatize stop tagger lemmatize morphy text := by
    rcases hw with h | h | h
    · exact List.mem_of_mem_filter (mem_keys_counter.mp h)
    · exact List.mem_of_mem_filter (mem_keys_counter.mp h)
    · exact mem_keys_counter.mp h
  unfold clean_and_lemmatize at hmem
  rcases List.mem_map.mp hmem with ⟨p, hp, rfl⟩
  have hfst : p.1 ∈ tokenize_filter stop text := by
    rw [← htag (tokenize_filter stop text)]
    exact List.mem_map.mpr ⟨p, hp, rfl⟩
  have hkeep : keepToken stop p.1 = true := List.of_mem_filter hfst
  unfold keepToken at hkeep
  simp only [Bool.and_eq_true, Bool.not_eq_true', decide_eq_true_eq] at hkeep
  exact ⟨p.1, hfst, hkeep.1.1, hkeep.1.2, hkeep.2, p.2, rfl⟩

theorem exTagger_fst (ws : List String) : (exTagger ws).map Prod.fst = ws := by
  induction ws with
  | nil => rfl
  | cons a t ih =>
    show ((a, "NNS") :: exTagger t).map Prod.fst = a :: t
    rw [List.map_cons, ih]

/-- C7 witness: the amended claim at the counterexample input — the
key "can" of the all-words table does come from the surviving token
"cans". -/
theorem table_keys_from_surviving_tokens_witness :
    ∃ t ∈ tokenize_filter exStop "cans",
      exStop.contains t = false ∧ pyIsDigit t = false ∧ 3 ≤ t.data.length ∧
      ∃ tg, "can" = normalize_word exLem (morphyAny exDict) t
        (some (get_wordnet_pos tg)) :=
  table_keys_from_surviving_tokens exStop exTagger exLem (morphyAny exDict)
    ∅ "cans" exTagger_fst "can" (Or.inr (Or.inr (by decide)))

/-- C8: when the extraction result is empty or whitespace-only,
`process_pdf` reports no data (returns `None`) without doing any
normalization or classification work, no frequency tables are
produced, and the caller (`main`) aborts with exit status 1. -/
theorem empty_extraction_no_tables (stop : List String)
    (tagger : List String → List (String × String))
    (lemmatize : String → WnPos → String) (morphy : String → Option String)
    (knownLines : Option (List String)) (text : String)
    (h : text.data.all Char.isWhitespace = true) :
    process_pdf stop tagger lemmatize morphy text = none ∧
    run_core stop tagger lemmatize morphy knownLines text = Except.error 1 := by
  have hp : process_pdf stop tagger lemmatize morphy text = none := by
    unfold process_pdf
    rw [if_pos ((pyStrip_eq_empty_iff text).mpr h)]
  refine ⟨hp, ?_⟩
  unfold run_core
  rw [hp]

/-- C8 witness: a concrete whitespace-only extraction result. -/
theorem empty_extraction_no_tables_witness :
    process_pdf exStop exTagger exLem (morphyAny exDict) " \n " = none ∧
    run_core exStop exTagger exLem (morphyAny exDict) none " \n " =
      Except.error 1 :=
  empty_extraction_no_tables exStop exTagger exLem (morphyAny exDict)
    none " \n " (by decide)

/-- C9: every key stored in any of the three frequency tables has a
strictly positive count — a `Counter` built from a list only creates
entries for elements of the list. -/
theorem tables_counts_positive (known : Finset String) (ws : List String) :
    (∀ p ∈ excluded_freq known ws, 0 < p.2) ∧
    (∀ p ∈ unknown_freq known ws, 0 < p.2) ∧
    (∀ p ∈ all_freq ws, 0 < p.2) :=
  ⟨fun _ hp => counter_pos hp, fun _ hp => counter_pos hp,
   fun _ hp => counter_pos hp⟩

/-- C9 witness: the single entry of the all-words table of a concrete
two-element stream has positive count. -/
theorem tables_counts_positive_witness : 0 < (("cat", 2) : String × Nat).2 :=
  (tables_counts_positive ∅ ["cat", "cat"]).2.2 ("cat", 2) (by decide)

/-- C10: a non-whitespace text all of whose tokens are filtered out is
NOT reported as "no data": `process_pdf` returns the empty lemma
stream and the run completes with three empty frequency tables (the
tagger hypothesis `tagger [] = []` is its interface contract on the
empty token sequence). -/
theorem filtered_out_tokens_empty_tables (stop : List String)
    (tagger : List String → List (String × String))
    (lemmatize : String → WnPos → String) (morphy : String → Option String)
    (knownLines : Option (List String)) (text : String)
    (h1 : text.data.all Char.isWhitespace = false)
    (h2 : tokenize_filter stop text = [])
    (h3 : tagger [] = []) :
    process_pdf stop tagger lemmatize morphy text = some [] ∧
    run_core stop tagger lemmatize morphy knownLines text =
      Except.ok ([], [], []) := by
  have hstrip : ¬ pyStrip text = "" := by
    intro hc
    rw [(pyStrip_eq_empty_iff text).mp hc] at h1
    cases h1
  have hclean : clean_and_lemmatize stop tagger lemmatize morphy text = [] := by
    unfold clean_and_lemmatize
    rw [h2, h3]
    rfl
  have hp : process_pdf stop tagger lemmatize morphy text = some [] := by
    unfold process_pdf
    rw [if_neg hstrip, hclean]
  refine ⟨hp, ?_⟩
  unfold run_core
  rw [hp]
  rfl

/-- C10 witness: the text "the" is non-whitespace, its only token is a
stopword, and the run completes with three empty tables. -/
theorem filtered_out_tokens_empty_tables_witness :
    process_pdf exStop exTagger exLem (morphyAny exDict) "the" = some [] ∧
    run_core exStop exTagger exLem (morphyAny exDict) none "the" =
      Except.ok ([], [], []) :=
  filtered_out_tokens_empty_tables exStop exTagger exLem (morphyAny exDict)
    none "the" (by decide) (by decide) rfl
